import Mathlib

/-!
Verification of the moviedisc-ripper pipeline (disc fingerprinting, MakeMKV
scan-output parsing, track classification, audio selection policy, read-error
retry loop, metadata handoff) against its specification.

The Python sources are shallowly embedded as executable Lean definitions:
  * `src/moviedisc_ripper.py`  — fingerprints, audio selection, retry loop
  * `src/includes/makemkv_titles.py` — scan-output parsing and classification
  * `src/includes/metadata_layout.py` — metadata handoff client

Machine integers are modelled as `Nat` with explicit `% 2 ^ 32` where the
hash algorithm wraps; fallible Python code (exceptions / `sys.exit`) is
modelled with explicit result types.
-/

set_option maxRecDepth 100000

namespace MovieDisc

/-! ## Generic string helpers (Python `str` operations on ASCII text) -/

/-- Python `str.lower()` restricted to ASCII input (all strings handled by
the program are ASCII). -/
def lowerStr (s : String) : String := String.mk (s.toList.map Char.toLower)

/-- Boolean list-prefix test used to implement substring search. -/
def startsWithL : List Char → List Char → Bool
  | pc :: pt, hc :: ht => pc == hc && startsWithL pt ht
  | [], _ => true
  | _, [] => false

/-- Occurrence of `n` as a contiguous sublist of `h`: Python `n in h`. -/
def containsL (n : List Char) : List Char → Bool
  | [] => n.isEmpty
  | c :: rest => startsWithL n (c :: rest) || containsL n rest

/-- Python `needle in hay` on strings. -/
def strContains (hay needle : String) : Bool := containsL needle.toList hay.toList

/-- Python whitespace characters recognised by `str.strip()` / `\s` (ASCII). -/
def isPyWs (c : Char) : Bool :=
  c == ' ' || c == '\t' || c == '\n' || c == '\r' || c == '\x0b' || c == '\x0c'

/-- Python `str.strip()` on a character list. -/
def stripL (l : List Char) : List Char :=
  ((l.dropWhile isPyWs).reverse.dropWhile isPyWs).reverse

/-- Python `str.strip()`. -/
def stripStr (s : String) : String := String.mk (stripL s.toList)

/-! ## SHA-256 (the `sha256` helper of `moviedisc_ripper.py`, i.e. Python's
`hashlib.sha256(text.encode("utf-8")).hexdigest()`), over `Nat` bytes. -/

/-- UTF-8 encoding of one code point as big-endian bytes. -/
def utf8EncodeChar (n : Nat) : List Nat :=
  if n < 128 then [n]
  else if n < 2048 then [192 + n / 64, 128 + n % 64]
  else if n < 65536 then [224 + n / 4096, 128 + (n / 64) % 64, 128 + n % 64]
  else [240 + n / 262144, 128 + (n / 4096) % 64, 128 + (n / 64) % 64, 128 + n % 64]

/-- Python `text.encode("utf-8")` as a byte list. -/
def strUtf8 (s : String) : List Nat := (s.toList.map (fun c => utf8EncodeChar c.toNat)).flatten

def rotr32 (n x : Nat) : Nat := ((x >>> n) ||| (x <<< (32 - n))) % 2 ^ 32

def sha2Ch (x y z : Nat) : Nat := (x &&& y) ^^^ ((x ^^^ 4294967295) &&& z)

def sha2Maj (x y z : Nat) : Nat := (x &&& y) ^^^ (x &&& z) ^^^ (y &&& z)

def bsig0 (x : Nat) : Nat := rotr32 2 x ^^^ rotr32 13 x ^^^ rotr32 22 x

def bsig1 (x : Nat) : Nat := rotr32 6 x ^^^ rotr32 11 x ^^^ rotr32 25 x

def ssig0 (x : Nat) : Nat := rotr32 7 x ^^^ rotr32 18 x ^^^ (x >>> 3)

def ssig1 (x : Nat) : Nat := rotr32 17 x ^^^ rotr32 19 x ^^^ (x >>> 10)

/-- SHA-256 round constants (FIPS 180-4, in decimal). -/
def sha2K : List Nat :=
  [1116352408, 1899447441, 3049323471, 3921009573, 961987163,
   1508970993, 2453635748, 2870763221, 3624381080, 310598401,
   607225278, 1426881987, 1925078388, 2162078206, 2614888103,
   3248222580, 3835390401, 4022224774, 264347078, 604807628,
   770255983, 1249150122, 1555081692, 1996064986, 2554220882,
   2821834349, 2952996808, 3210313671, 3336571891, 3584528711,
   113926993, 338241895, 666307205, 773529912, 1294757372,
   1396182291, 1695183700, 1986661051, 2177026350, 2456956037,
   2730485921, 2820302411, 3259730800, 3345764771, 3516065817,
   3600352804, 4094571909, 275423344, 430227734, 506948616,
   659060556, 883997877, 958139571, 1322822218, 1537002063,
   1747873779, 1955562222, 2024104815, 2227730452, 2361852424,
   2428436474, 2756734187, 3204031479, 3329325298]

/-- SHA-256 initial hash value (FIPS 180-4, in decimal). -/
def sha2H0 : List Nat :=
  [1779033703, 3144134277, 1013904242, 2773480762,
   1359893119, 2600822924, 528734635, 1541459225]

/-- Big-endian 8-byte encoding of a length in bits. -/
def be64 (n : Nat) : List Nat :=
  [(n >>> 56) % 256, (n >>> 48) % 256, (n >>> 40) % 256, (n >>> 32) % 256,
   (n >>> 24) % 256, (n >>> 16) % 256, (n >>> 8) % 256, n % 256]

/-- SHA-256 message padding. -/
def sha256Pad (msg : List Nat) : List Nat :=
  msg ++ [128] ++ List.replicate ((119 - msg.length % 64) % 64) 0 ++ be64 (8 * msg.length)

/-- Split a byte list into 64-byte blocks (structural recursion on a fuel
bound so that the definition evaluates inside the kernel). -/
def chunksAux : Nat → List Nat → List (List Nat)
  | 0, _ => []
  | _, [] => []
  | f + 1, b :: rest => ((b :: rest).take 64) :: chunksAux f ((b :: rest).drop 64)

/-- Split a byte list into 64-byte blocks. -/
def chunks64 (l : List Nat) : List (List Nat) := chunksAux l.length l

/-- Combine bytes into big-endian 32-bit words. -/
def toWords32 : List Nat → List Nat
  | b0 :: b1 :: b2 :: b3 :: rest => (b0 * 16777216 + b1 * 65536 + b2 * 256 + b3) :: toWords32 rest
  | _ => []

/-- Extend the 16-word message block to the 64-word schedule. -/
def extendW : List Nat → Nat → List Nat
  | ws, 0 => ws
  | ws, n + 1 =>
    extendW (ws ++ [(ssig1 (ws.getD (ws.length - 2) 0) + ws.getD (ws.length - 7) 0 +
                     ssig0 (ws.getD (ws.length - 15) 0) + ws.getD (ws.length - 16) 0) % 2 ^ 32]) n

/-- One SHA-256 compression round; the state is the 8-word working vector. -/
def sha256Round (st : List Nat) (kw : Nat × Nat) : List Nat :=
  match st with
  | [a, b, c, d, e, f, g, h] =>
    let t1 := (h + bsig1 e + sha2Ch e f g + kw.1 + kw.2) % 2 ^ 32
    let t2 := (bsig0 a + sha2Maj a b c) % 2 ^ 32
    [(t1 + t2) % 2 ^ 32, a, b, c, (d + t1) % 2 ^ 32, e, f, g]
  | _ => st

/-- Process one 64-byte block. -/
def sha256Block (H : List Nat) (block : List Nat) : List Nat :=
  let ws := extendW (toWords32 block) 48
  let st := (sha2K.zip ws).foldl sha256Round H
  (H.zip st).map (fun p => (p.1 + p.2) % 2 ^ 32)

/-- SHA-256 digest of a byte list, as the 8 hash words. -/
def sha256Words (msg : List Nat) : List Nat :=
  (chunks64 (sha256Pad msg)).foldl sha256Block sha2H0

/-- Lower-case hex digit. -/
def hexDigit (n : Nat) : Char := if n < 10 then Char.ofNat (48 + n) else Char.ofNat (87 + n)

/-- Eight hex digits of one 32-bit word. -/
def hexOfWord (w : Nat) : List Char :=
  (List.range 8).map (fun i => hexDigit ((w >>> (28 - 4 * i)) % 16))

/-- Hex digest of a byte list. -/
def sha256hexBytes (msg : List Nat) : String :=
  String.mk ((sha256Words msg).map hexOfWord).flatten

/-- Embedding of the repo helper `sha256(text)` =
`hashlib.sha256(text.encode("utf-8")).hexdigest()` (`moviedisc_ripper.py`). -/
def sha256 (text : String) : String := sha256hexBytes (strUtf8 text)

example : sha256 "abc" = "ba7816bf8f01cfea414140de5dae2223b00361a396177a9cb410ff61f20015ad" := by
  decide

/-! ## Fingerprinter (`moviedisc_ripper.py`, `_is_junk_file`, `disc_fingerprint`,
`disc_fingerprint_legacy`)

A mounted volume is modelled as the multiset of files `os.walk` visits: each
file carries its directory components (relative to the volume root, in
order), its name, and its byte size.  The `dirs[:] = [d for d in dirs if not
_is_junk_file(d)]` pruning in `disc_fingerprint` excludes exactly the files
having a junk directory among their ancestors, which is how the filtered
walk is expressed on this flat representation.  `os.path.relpath` plus the
separator normalisation yields the components joined by `"/"`. -/

/-- One file of the mounted volume as visited by `os.walk`. -/
structure VolFile where
  dirs : List String
  name : String
  size : Nat
deriving Repr, DecidableEq

/-- The `_JUNK_FILES` frozenset of `moviedisc_ripper.py`. -/
def JUNK_FILES : List String :=
  [".ds_store", "thumbs.db", "desktop.ini", ".spotlight-v100", ".fseventsd",
   ".trashes", "$recycle.bin"]

/-- Embedding of `_is_junk_file` (lower-cased exact names plus the
`_JUNK_PREFIXES = ("._",)` check). -/
def is_junk_file (filename : String) : Bool :=
  let lower := lowerStr filename
  JUNK_FILES.contains lower || startsWithL "._".toList lower.toList

/-- A file survives the filtered walk of `disc_fingerprint` iff neither its
name nor any ancestor directory is OS junk. -/
def keptByJunkFilter (f : VolFile) : Bool :=
  !is_junk_file f.name && f.dirs.all (fun d => !is_junk_file d)

/-- The files collected by the volume walk, with (`disc_fingerprint`) or
without (`disc_fingerprint_legacy`) junk filtering. -/
def walkFiles (filterJunk : Bool) (tree : List VolFile) : List VolFile :=
  if filterJunk then tree.filter keptByJunkFilter else tree

/-- Relative path of a walked file with separators normalised to `/`. -/
def relPath (f : VolFile) : String := String.intercalate "/" (f.dirs ++ [f.name])

/-- Lexicographic code-point comparison, Python's `<=` on `str`. -/
def lexLe : List Char → List Char → Bool
  | [], _ => true
  | _ :: _, [] => false
  | a :: as, b :: bs =>
    if a.toNat < b.toNat then true
    else if b.toNat < a.toNat then false
    else lexLe as bs

def insertStr (x : String) : List String → List String
  | [] => [x]
  | y :: ys => if lexLe x.toList y.toList then x :: y :: ys else y :: insertStr x ys

/-- Python `list.sort()` on strings (insertion sort; Python sorts by code
point, and ties are identical strings, so any sorting algorithm agrees). -/
def sortStrings : List String → List String
  | [] => []
  | x :: xs => insertStr x (sortStrings xs)

/-- Four hex digits of a 16-bit value. -/
def hexDigit4 (n : Nat) : List Char :=
  [hexDigit ((n >>> 12) % 16), hexDigit ((n >>> 8) % 16), hexDigit ((n >>> 4) % 16),
   hexDigit (n % 16)]

/-- Escaping of one character by `json.dumps` (default `ensure_ascii=True`). -/
def jsonEscapeChar (c : Char) : List Char :=
  if c = '"' then ['\\', '"']
  else if c = '\\' then ['\\', '\\']
  else if c = '\n' then ['\\', 'n']
  else if c = '\t' then ['\\', 't']
  else if c = '\r' then ['\\', 'r']
  else if c = '\x08' then ['\\', 'b']
  else if c = '\x0c' then ['\\', 'f']
  else if c.toNat < 32 || 126 < c.toNat then
    if c.toNat < 65536 then '\\' :: 'u' :: hexDigit4 c.toNat
    else
      ('\\' :: 'u' :: hexDigit4 (55296 + (c.toNat - 65536) / 1024)) ++
        ('\\' :: 'u' :: hexDigit4 (56320 + (c.toNat - 65536) % 1024))
  else [c]

/-- A JSON string literal as emitted by `json.dumps`. -/
def jsonStr (s : String) : String :=
  "\"" ++ String.mk (s.toList.map jsonEscapeChar).flatten ++ "\""

/-- A JSON array of strings with `separators=(",", ":")`. -/
def jsonStrList (l : List String) : String :=
  "[" ++ String.intercalate "," (l.map jsonStr) ++ "]"

/-- The canonical JSON document hashed by both fingerprint functions:
`json.dumps({"disc_type", "file_count", "total_size", "files"},
separators=(",", ":"), sort_keys=True)`.  With sorted keys the order is
disc_type, file_count, files, total_size.  Both Python functions build the
same document; they differ only in junk filtering and `disc_type` casing,
passed in here by their callers. -/
def fingerprintDoc (disc_type : String) (filterJunk : Bool) (tree : List VolFile) : String :=
  let fs := walkFiles filterJunk tree
  let files := sortStrings (fs.map relPath)
  let total := (fs.map (fun f => f.size)).sum
  "\x7b\"disc_type\":" ++ jsonStr disc_type ++ ",\"file_count\":" ++ toString files.length ++
    ",\"files\":" ++ jsonStrList (files.take 200) ++ ",\"total_size\":" ++ toString total ++ "\x7d"

/-- Embedding of `disc_fingerprint(volume, disc_type)`: lower-cases
`disc_type`, walks the volume with junk filtering, hashes the canonical
document. -/
def disc_fingerprint (tree : List VolFile) (disc_type : String) : String :=
  sha256 (fingerprintDoc (lowerStr disc_type) true tree)

/-- Embedding of `disc_fingerprint_legacy(volume, disc_type, preserve_case)`:
no junk filtering, and `disc_type` is lower-cased only when
`preserve_case` is false. -/
def disc_fingerprint_legacy (tree : List VolFile) (disc_type : String)
    (preserve_case : Bool) : String :=
  sha256 (fingerprintDoc (if preserve_case then disc_type else lowerStr disc_type) false tree)

example :
    fingerprintDoc "dvd" true [⟨[], "a", 1⟩] =
      "\x7b\"disc_type\":\"dvd\",\"file_count\":1,\"files\":[\"a\"],\"total_size\":1\x7d" := by
  decide

example :
    disc_fingerprint_legacy [⟨[], "a", 1⟩] "DVD" true ≠ disc_fingerprint [⟨[], "a", 1⟩] "dvd" := by
  decide

/-! ## Scan-output parsing and track classification
(`src/includes/makemkv_titles.py`) -/

/-- Outcome of Python code that may raise (exceptions / `sys.exit`). -/
inductive PyValue (α : Type) where
  | raised : PyValue α
  | ok : α → PyValue α
deriving Repr, DecidableEq

/-- Python `str.upper()` restricted to ASCII input. -/
def upperStr (s : String) : String := String.mk (s.toList.map Char.toUpper)

/-- The `_DISC_ERROR_SUBSTRINGS` tuple of `makemkv_titles.py`. -/
def DISC_ERROR_SUBSTRINGS : List String :=
  ["medium error", "uncorrectable error", "scsi error", "lec uncorrectable"]

/-- The `LANG_CODE_TO_NAME` table. -/
def LANG_CODE_TO_NAME : List (String × String) :=
  [("eng", "English"), ("spa", "Spanish"), ("fra", "French"), ("fre", "French"),
   ("deu", "German"), ("ger", "German"), ("ita", "Italian"), ("por", "Portuguese"),
   ("rus", "Russian"), ("jpn", "Japanese"), ("zho", "Chinese"), ("chi", "Chinese"),
   ("kor", "Korean"), ("ara", "Arabic"), ("hin", "Hindi"), ("tha", "Thai"),
   ("vie", "Vietnamese"), ("pol", "Polish"), ("nld", "Dutch"), ("dut", "Dutch"),
   ("swe", "Swedish"), ("nor", "Norwegian"), ("dan", "Danish"), ("fin", "Finnish"),
   ("ice", "Icelandic"), ("isl", "Icelandic"), ("ces", "Czech"), ("cze", "Czech"),
   ("hun", "Hungarian"), ("tur", "Turkish"), ("heb", "Hebrew"), ("gre", "Greek"),
   ("ell", "Greek"), ("ron", "Romanian"), ("rum", "Romanian"), ("bul", "Bulgarian"),
   ("hrv", "Croatian"), ("slv", "Slovenian"), ("srp", "Serbian"), ("ukr", "Ukrainian"),
   ("und", "Unknown")]

/-- The `AUDIO_CODEC_NAMES` table (insertion order preserved: the partial
match loop iterates in this order). -/
def AUDIO_CODEC_NAMES : List (String × String) :=
  [("A_AC3", "Dolby Digital"), ("A_EAC3", "Dolby Digital Plus"), ("A_TRUEHD", "Dolby TrueHD"),
   ("A_DTS", "DTS"), ("A_DTS-HD", "DTS-HD"), ("A_DTS-HD.MA", "DTS-HD Master Audio"),
   ("A_DTS-HD.HRA", "DTS-HD High Resolution"), ("A_DTS:X", "DTS:X"), ("A_AAC", "AAC"),
   ("A_FLAC", "FLAC"), ("A_PCM", "PCM"), ("A_LPCM", "LPCM"), ("A_MP3", "MP3"),
   ("A_VORBIS", "Vorbis"), ("A_OPUS", "Opus"), ("A_MPEG/L2", "MP2"), ("A_MPEG/L3", "MP3")]

/-- The `ATMOS_KEYWORDS` tuple. -/
def ATMOS_KEYWORDS : List String := ["atmos", "truehd atmos", "dd+ atmos", "dolby atmos"]

/-- SINFO attribute ids used by the classifier. -/
def SINFO_TYPE : Nat := 1

def SINFO_LANG_CODE : Nat := 3

def SINFO_LANG_NAME : Nat := 4

def SINFO_CODEC_ID : Nat := 5

def SINFO_CODEC_SHORT : Nat := 6

def SINFO_CHANNELS : Nat := 13

def SINFO_NAME : Nat := 30

def SINFO_EXTRA : Nat := 31

/-- Decimal value of a digit list. -/
def digitsToNat (ds : List Char) : Nat := ds.foldl (fun a c => a * 10 + (c.toNat - 48)) 0

/-- Embedding of `_parse_duration_to_seconds`: strip, then the anchored
pattern digits, colon, two digits, colon, two digits; malformed input gives
`none`. -/
def _parse_duration_to_seconds (s : String) : Option Nat :=
  match (stripL s.toList).span Char.isDigit with
  | ([], _) => none
  | (d1, [':', m1, m2, ':', s1, s2]) =>
    if m1.isDigit && m2.isDigit && s1.isDigit && s2.isDigit then
      some (digitsToNat d1 * 3600 + digitsToNat [m1, m2] * 60 + digitsToNat [s1, s2])
    else none
  | _ => none

def isDigitOrDot (c : Char) : Bool := c.isDigit || c == '.'

/-- Model of Python `float(cs)` for a string of digits and dots, as an exact
rational numerator/denominator pair; `none` where `float()` raises
`ValueError` (no digit, or more than one dot).  The source computes in
binary floating point; this model uses exact arithmetic, which agrees with
the source at the magnitudes the spec fixes (its own tolerance is
"±rounding"). -/
def parseFloatQ (cs : List Char) : Option (Nat × Nat) :=
  let ip := cs.takeWhile Char.isDigit
  match cs.dropWhile Char.isDigit with
  | [] => if ip.isEmpty then none else some (digitsToNat ip, 1)
  | '.' :: frac =>
    if frac.all Char.isDigit && !(ip.isEmpty && frac.isEmpty) then
      some (digitsToNat ip * 10 ^ frac.length + digitsToNat frac, 10 ^ frac.length)
    else none
  | _ => none

/-- Exponent of the size unit letter in the `multipliers` dict. -/
def unitExp (c : Char) : Option Nat :=
  if c == 'K' then some 1
  else if c == 'M' then some 2
  else if c == 'G' then some 3
  else if c == 'T' then some 4
  else if c == 'P' then some 5
  else none

/-- Shared tail of `_parse_size_to_bytes` once the regex has matched: float
conversion (which may raise), unit multiplier, and `int(value * mult)`
(truncation = floor on the non-negative value, computed exactly). -/
def sizeFromParts (numPart : List Char) (u : Char) (iec : Bool) : PyValue (Option Int) :=
  match parseFloatQ numPart with
  | none => .raised
  | some nd =>
    match unitExp u with
    | none => .ok none
    | some e =>
      let base : Nat := if iec then 1024 else 1000
      .ok (some (Int.ofNat (nd.1 * base ^ e / nd.2)))

/-- The `re.match(r"^([\d.]+)\s*([KMGTP]i?B)$", s, re.IGNORECASE)` test on
the stripped string: on success, the number text, the upper-cased unit
letter, and whether the IEC (`i`) infix was present. -/
def sizeRegexMatch (s : String) : Option (List Char × Char × Bool) :=
  let t := stripL s.toList
  let numPart := t.takeWhile isDigitOrDot
  if numPart.isEmpty then none
  else
    match (t.dropWhile isDigitOrDot).dropWhile isPyWs with
    | [u, b] =>
      if (unitExp u.toUpper).isSome && (b == 'B' || b == 'b') then
        some (numPart, u.toUpper, false)
      else none
    | [u, i, b] =>
      if (unitExp u.toUpper).isSome && (i == 'i' || i == 'I') && (b == 'B' || b == 'b') then
        some (numPart, u.toUpper, true)
      else none
    | _ => none

/-- Embedding of `_parse_size_to_bytes`: strip, then the anchored
case-insensitive pattern `([\d.]+)\s*([KMGTP]i?B)`; a non-matching string
gives `none`, a matching one with an invalid float raises. -/
def _parse_size_to_bytes (s : String) : PyValue (Option Int) :=
  match sizeRegexMatch s with
  | none => .ok none
  | some m => sizeFromParts m.1 m.2.1 m.2.2

/-- Lookup in a string-keyed table (Python dict `.get`, insertion order). -/
def alGetStr (m : List (String × String)) (k : String) : Option String :=
  (m.find? (fun p => p.1 == k)).map (fun p => p.2)

/-- Python `stream_info.get(k, dflt)` on the per-stream attribute map. -/
def siGet (m : List (Nat × String)) (k : Nat) (dflt : String) : String :=
  match m.find? (fun p => p.1 == k) with
  | some p => p.2
  | none => dflt

/-- Flags produced by `_detect_track_flags` (its `default` entry is never
set and stays `False`). -/
structure TrackFlags where
  commentary : Bool
  forced : Bool
  sdh : Bool
deriving Repr, DecidableEq

/-- Embedding of `_detect_track_flags`: keyword search over the
concatenated name, extra-info and codec-short fields. -/
def _detect_track_flags (stream_info : List (Nat × String)) : TrackFlags :=
  let name := lowerStr (siGet stream_info SINFO_NAME "")
  let extra := lowerStr (siGet stream_info SINFO_EXTRA "")
  let codec_info := lowerStr (siGet stream_info SINFO_CODEC_SHORT "")
  let combined := name ++ " " ++ extra ++ " " ++ codec_info
  { commentary := strContains combined "commentary" || strContains combined "comment"
    forced := strContains combined "forced"
    sdh := strContains combined "sdh" || strContains combined "hearing" ||
      strContains combined "impaired" }

/-- Word character for the `\b` boundary of Python regexes (ASCII). -/
def isWordChar (c : Char) : Bool := c.isAlphanum || c == '_'

def isLayoutFirst (c : Char) : Bool :=
  c == '1' || c == '2' || c == '5' || c == '6' || c == '7'

def isLayoutSecond (c : Char) : Bool := c == '0' || c == '1' || c == '2'

/-- Left `\b`: position 0, or the preceding character is not a word
character (the matched first character is a digit, hence a word character). -/
def leftBoundaryOk : Option Char → Bool
  | none => true
  | some c => !isWordChar c

/-- Right `\b`: end of input, or the next character is not a word character. -/
def rightBoundaryOk : List Char → Bool
  | [] => true
  | c :: _ => !isWordChar c

/-- Embedding of `re.search(r"\b([12567]\.[012])\b", all_info)`: scan left
to right, carrying the previous character for the left word boundary.  A
match at the current position needs three characters — the first in the
pattern's first digit class, the middle the literal dot, the third in the
second digit class — with both `\b` boundaries. -/
def findLayoutAux (prev : Option Char) : List Char → Option (List Char)
  | [] => none
  | c1 :: rest =>
    match rest with
    | cd :: c2 :: rest2 =>
      if cd == '.' && isLayoutFirst c1 && isLayoutSecond c2 && leftBoundaryOk prev &&
          rightBoundaryOk rest2 then
        some [c1, cd, c2]
      else findLayoutAux (some c1) rest
    | _ => findLayoutAux (some c1) rest

/-- The channel-layout search of `_parse_audio_track` on the combined text. -/
def findChannelLayout (s : String) : Option String :=
  (findLayoutAux none s.toList).map String.mk

/-- Match of the bitrate pattern `(\d+(?:\.\d+)?\s*[KkMm]b/s)` anchored at
the current position, returning the matched text. -/
def matchBitrateHere (s : List Char) : Option (List Char) :=
  let ds := s.takeWhile Char.isDigit
  if ds.isEmpty then none
  else
    let r1 := s.dropWhile Char.isDigit
    let fr :=
      match r1 with
      | '.' :: more =>
        if (more.takeWhile Char.isDigit).isEmpty then (([] : List Char), r1)
        else ('.' :: more.takeWhile Char.isDigit, more.dropWhile Char.isDigit)
      | _ => ([], r1)
    let wsTxt := fr.2.takeWhile isPyWs
    match fr.2.dropWhile isPyWs with
    | k :: 'b' :: '/' :: 's' :: _ =>
      if k == 'K' || k == 'k' || k == 'M' || k == 'm' then
        some (ds ++ fr.1 ++ wsTxt ++ [k, 'b', '/', 's'])
      else none
    | _ => none

/-- Leftmost search for the bitrate pattern. -/
def findBitrate : List Char → Option (List Char)
  | [] => none
  | c :: rest =>
    match matchBitrateHere (c :: rest) with
    | some m => some m
    | none => findBitrate rest

/-- Audio track record produced by `_parse_audio_track` (the constant
`"type": "audio"` entry is carried by the Lean type). -/
structure AudioTrack where
  stream_index : Nat
  language_code : String
  language_name : String
  codec_name : String
  codec_format : String
  channel_format : String
  name : String
  is_atmos : Bool
  is_commentary : Bool
  is_default : Bool
  enabled : Bool
deriving Repr, DecidableEq, Inhabited

/-- Subtitle track record produced by `_parse_subtitle_track`. -/
structure SubtitleTrack where
  stream_index : Nat
  language_code : String
  language_name : String
  codec_name : String
  codec_format : String
  name : String
  is_forced : Bool
  is_sdh : Bool
  is_commentary : Bool
  is_default : Bool
  enabled : Bool
deriving Repr, DecidableEq, Inhabited

/-- Shared language-name resolution of both track parsers. -/
def resolveLangName (lang_name0 lang_code : String) : String :=
  if lang_name0.isEmpty || lang_name0 == "Unknown" then
    match alGetStr LANG_CODE_TO_NAME (lowerStr lang_code) with
    | some v => v
    | none => if lang_code.isEmpty then "Unknown" else upperStr lang_code
  else lang_name0

/-- Embedding of `_parse_audio_track`. -/
def _parse_audio_track (stream_index : Nat) (stream_info : List (Nat × String)) : AudioTrack :=
  let lang_code := siGet stream_info SINFO_LANG_CODE "und"
  let codec_id := siGet stream_info SINFO_CODEC_ID ""
  let codec_short := siGet stream_info SINFO_CODEC_SHORT ""
  let channels := siGet stream_info SINFO_CHANNELS ""
  let name := siGet stream_info SINFO_NAME ""
  let lang_name := resolveLangName (siGet stream_info SINFO_LANG_NAME "") lang_code
  let cr0 := (alGetStr AUDIO_CODEC_NAMES (upperStr codec_id)).getD ""
  let cr1 :=
    if cr0.isEmpty then
      match AUDIO_CODEC_NAMES.find?
          (fun p => startsWithL p.1.toList (upperStr codec_id).toList) with
      | some p => p.2
      | none => ""
    else cr0
  let codec_readable := if cr1.isEmpty then (if codec_id.isEmpty then "Unknown" else codec_id) else cr1
  let all_info := channels ++ " " ++ name ++ " " ++ codec_short
  let channel_layout :=
    match findChannelLayout all_info with
    | some l => l
    | none =>
      if strContains (lowerStr all_info) "stereo" then "2.0"
      else if strContains (lowerStr all_info) "mono" then "1.0"
      else if strContains (lowerStr all_info) "surround" then "5.1"
      else ""
  let channel_format0 :=
    if !channel_layout.isEmpty then
      if channel_layout == "5.1" || channel_layout == "6.1" || channel_layout == "7.1" then
        channel_layout ++ " Surround"
      else if channel_layout == "2.0" then "Stereo"
      else if channel_layout == "1.0" then "Mono"
      else channel_layout
    else channels
  let bitrate :=
    match findBitrate all_info.toList with
    | some m => String.mk m
    | none => ""
  let is_atmos := ATMOS_KEYWORDS.any (fun kw => strContains (lowerStr all_info) kw)
  let cf1 :=
    if is_atmos && !strContains (lowerStr codec_readable) "atmos" then
      codec_readable ++ " Atmos"
    else codec_readable
  let cf2 :=
    if !channel_layout.isEmpty && !strContains cf1 channel_layout then
      cf1 ++ " " ++ channel_layout
    else cf1
  let channel_format := if channel_format0.isEmpty && !bitrate.isEmpty then bitrate else channel_format0
  let flags := _detect_track_flags stream_info
  { stream_index := stream_index
    language_code := lang_code
    language_name := lang_name
    codec_name := cf2
    codec_format := codec_id
    channel_format := channel_format
    name := name
    is_atmos := is_atmos
    is_commentary := flags.commentary
    is_default := false
    enabled := true }

/-- Embedding of `_parse_subtitle_track`. -/
def _parse_subtitle_track (stream_index : Nat) (stream_info : List (Nat × String)) : SubtitleTrack :=
  let lang_code := siGet stream_info SINFO_LANG_CODE "und"
  let codec_id := siGet stream_info SINFO_CODEC_ID ""
  let codec_short := siGet stream_info SINFO_CODEC_SHORT ""
  let name := siGet stream_info SINFO_NAME ""
  let lang_name := resolveLangName (siGet stream_info SINFO_LANG_NAME "") lang_code
  let codec_lower := lowerStr codec_id
  let codec_format :=
    if strContains codec_lower "pgs" || strContains codec_lower "hdmv" then "PGS"
    else if strContains codec_lower "srt" || strContains codec_lower "subrip" then "SRT"
    else if strContains codec_lower "ass" || strContains codec_lower "ssa" then "ASS"
    else if strContains codec_lower "vobsub" || strContains codec_lower "dvd" then "VobSub"
    else if strContains codec_lower "utf8" || strContains codec_lower "text" then "Text"
    else if !codec_short.isEmpty then codec_short
    else if !codec_id.isEmpty then codec_id
    else "Unknown"
  let flags := _detect_track_flags stream_info
  { stream_index := stream_index
    language_code := lang_code
    language_name := lang_name
    codec_name := codec_id
    codec_format := codec_format
    name := name
    is_forced := flags.forced
    is_sdh := flags.sdh
    is_commentary := flags.commentary
    is_default := false
    enabled := true }

/-! ## Line records, aggregation and `scan_titles_with_makemkv` -/

/-- Consume a literal from the front of the input. -/
def dropLit : List Char → List Char → Option (List Char)
  | [], rest => some rest
  | _ :: _, [] => none
  | a :: as, b :: bs => if a == b then dropLit as bs else none

/-- Consume `\d+` from the front of the input. -/
def takeNat (s : List Char) : Option (Nat × List Char) :=
  let ds := s.takeWhile Char.isDigit
  if ds.isEmpty then none else some (digitsToNat ds, s.dropWhile Char.isDigit)

/-- Consume one expected character. -/
def expectChar (c : Char) : List Char → Option (List Char)
  | [] => none
  | b :: bs => if b == c then some bs else none

/-- The quoted `"(.*)"$` tail of a record line: the remaining input must
start with a quote and end at a (distinct) final quote; the greedy group is
everything in between. -/
def takeQuotedValue (s : List Char) : Option String :=
  match expectChar '"' s with
  | none => none
  | some r =>
    match r.reverse with
    | '"' :: revMid => some (String.mk revMid.reverse)
    | _ => none

/-- Embedding of `_TINFO_RE.match`:
`^TINFO:(\d+),(\d+),(\d+),"(.*)"$` giving (title, attr, attr type, value). -/
def parseTINFO (s : List Char) : Option (Nat × Nat × Nat × String) := do
  let r ← dropLit "TINFO:".toList s
  let (t, r) ← takeNat r
  let r ← expectChar ',' r
  let (a, r) ← takeNat r
  let r ← expectChar ',' r
  let (ty, r) ← takeNat r
  let r ← expectChar ',' r
  let v ← takeQuotedValue r
  some (t, a, ty, v)

/-- Embedding of `_SINFO_RE.match`:
`^SINFO:(\d+),(\d+),(\d+),(\d+),"(.*)"$` giving
(title, stream, attr, attr type, value). -/
def parseSINFO (s : List Char) : Option (Nat × Nat × Nat × Nat × String) := do
  let r ← dropLit "SINFO:".toList s
  let (t, r) ← takeNat r
  let r ← expectChar ',' r
  let si ← takeNat r
  let r ← expectChar ',' si.2
  let (a, r) ← takeNat r
  let r ← expectChar ',' r
  let (ty, r) ← takeNat r
  let r ← expectChar ',' r
  let v ← takeQuotedValue r
  some (t, si.1, a, ty, v)

/-- Match of the angle pattern `Angle #(\d+) was added for title #(\d+)`
anchored at the current position of the already lower-cased line. -/
def matchAngleHere (s : List Char) : Bool :=
  match dropLit "angle #".toList s with
  | none => false
  | some r1 =>
    if (r1.takeWhile Char.isDigit).isEmpty then false
    else
      match dropLit " was added for title #".toList (r1.dropWhile Char.isDigit) with
      | none => false
      | some r2 => !(r2.takeWhile Char.isDigit).isEmpty

/-- Embedding of `_ANGLE_RE.search` (case-insensitive search). -/
def angleSearch : List Char → Bool
  | [] => false
  | c :: rest => matchAngleHere (c :: rest) || angleSearch rest

def hasAngleAnnouncement (line : String) : Bool := angleSearch (lowerStr line).toList

/-- Insert-or-overwrite into an attribute map (Python
`dict.setdefault(...)[attr_id] = value`, insertion-ordered). -/
def attrUpsert (k : Nat) (v : String) : List (Nat × String) → List (Nat × String)
  | [] => [(k, v)]
  | (k0, v0) :: rest => if k0 == k then (k0, v) :: rest else (k0, v0) :: attrUpsert k v rest

/-- Insert-or-overwrite into a map of attribute maps. -/
def tmapUpsert (t a : Nat) (v : String) :
    List (Nat × List (Nat × String)) → List (Nat × List (Nat × String))
  | [] => [(t, [(a, v)])]
  | (t0, m) :: rest =>
    if t0 == t then (t0, attrUpsert a v m) :: rest else (t0, m) :: tmapUpsert t a v rest

/-- Insert-or-overwrite into the nested title → stream → attribute map. -/
def smapUpsert (t si a : Nat) (v : String) :
    List (Nat × List (Nat × List (Nat × String))) →
      List (Nat × List (Nat × List (Nat × String)))
  | [] => [(t, [(si, [(a, v)])])]
  | (t0, m) :: rest =>
    if t0 == t then (t0, tmapUpsert si a v m) :: rest else (t0, m) :: smapUpsert t si a v rest

/-- The aggregation state of the scan loop (`titles_tinfo`, `titles_sinfo`,
`angles_detected`). -/
structure ScanState where
  tinfo : List (Nat × List (Nat × String))
  sinfo : List (Nat × List (Nat × List (Nat × String)))
  angles : Bool
deriving Repr, DecidableEq

/-- One iteration of the line loop of `scan_titles_with_makemkv`: strip,
skip empty, angle announcement, TINFO record, SINFO record. -/
def processLine (st : ScanState) (line : String) : ScanState :=
  let l := stripStr line
  if l.isEmpty then st
  else if hasAngleAnnouncement l then { st with angles := true }
  else
    match parseTINFO l.toList with
    | some r => { st with tinfo := tmapUpsert r.1 r.2.1 r.2.2.2 st.tinfo }
    | none =>
      match parseSINFO l.toList with
      | some r => { st with sinfo := smapUpsert r.1 r.2.1 r.2.2.1 r.2.2.2.2 st.sinfo }
      | none => st

/-- Python `sorted` on `Nat` keys (insertion sort; keys are distinct). -/
def insertNat (x : Nat) : List Nat → List Nat
  | [] => [x]
  | y :: ys => if x ≤ y then x :: y :: ys else y :: insertNat x ys

def sortNat : List Nat → List Nat
  | [] => []
  | x :: xs => insertNat x (sortNat xs)

/-- One title of the scan result (the dict built at the end of
`scan_titles_with_makemkv`; its `"raw"` entry is the `raw_tinfo` /
`raw_sinfo` pair). -/
structure Title where
  title_index : Nat
  name : Option String
  length : Option String
  duration_seconds : Option Nat
  size : Option String
  size_bytes : Option Int
  source_file : Option String
  audio_tracks : List AudioTrack
  subtitle_tracks : List SubtitleTrack
  raw_tinfo : List (Nat × String)
  raw_sinfo : List (Nat × List (Nat × String))
deriving Repr, DecidableEq, Inhabited

/-- Python `tinfo.get(k) or None`: missing and empty values both collapse
to `None`. -/
def attrGetOrNone (m : List (Nat × String)) (k : Nat) : Option String :=
  match m.find? (fun p => p.1 == k) with
  | some p => if p.2.isEmpty then none else some p.2
  | none => none

/-- Projection of one aggregated title (`name`, `length`, `size`,
`source_file`, parsed duration and size, and the per-stream audio/subtitle
classification in sorted stream order, keeping the source's
audio-before-subtitle string tests). -/
def buildTitle (title_index : Nat) (tinfo : List (Nat × String))
    (sinfo : List (Nat × List (Nat × String))) : PyValue Title :=
  let name := attrGetOrNone tinfo 2
  let length := attrGetOrNone tinfo 9
  let size := attrGetOrNone tinfo 10
  let source_file := attrGetOrNone tinfo 27
  let duration_seconds := length.bind _parse_duration_to_seconds
  match (match size with | some s => _parse_size_to_bytes s | none => .ok none) with
  | .raised => .raised
  | .ok size_bytes =>
    let skeys := sortNat (sinfo.map (fun p => p.1))
    let tracks := skeys.foldl
      (fun acc si =>
        let stream_info := (((sinfo.find? (fun p => p.1 == si)).map (fun p => p.2)).getD [])
        let type_str := lowerStr (siGet stream_info SINFO_TYPE "")
        if strContains type_str "audio" then
          (acc.1 ++ [_parse_audio_track si stream_info], acc.2)
        else if strContains type_str "subtitle" then
          (acc.1, acc.2 ++ [_parse_subtitle_track si stream_info])
        else acc)
      (([] : List AudioTrack), ([] : List SubtitleTrack))
    .ok
      { title_index := title_index
        name := name
        length := length
        duration_seconds := duration_seconds
        size := size
        size_bytes := size_bytes
        source_file := source_file
        audio_tracks := tracks.1
        subtitle_tracks := tracks.2
        raw_tinfo := tinfo
        raw_sinfo := sinfo }

/-- Build all titles in sorted title-index order, propagating a raised
size-parse exception. -/
def buildTitlesList (st : ScanState) : List Nat → PyValue (List Title)
  | [] => .ok []
  | k :: rest =>
    let tinfo := ((st.tinfo.find? (fun p => p.1 == k)).map (fun p => p.2)).getD []
    let sinfo := ((st.sinfo.find? (fun p => p.1 == k)).map (fun p => p.2)).getD []
    match buildTitle k tinfo sinfo with
    | .raised => .raised
    | .ok t =>
      match buildTitlesList st rest with
      | .raised => .raised
      | .ok ts => .ok (t :: ts)

/-- The angle-duplicate pass of `scan_titles_with_makemkv`: `seen` is the
key set of the `seen_durations` dict. -/
def dedupByDuration (seen : List (Option Nat)) : List Title → List Title
  | [] => []
  | t :: rest =>
    if seen.contains t.duration_seconds then dedupByDuration seen rest
    else t :: dedupByDuration (t.duration_seconds :: seen) rest

/-- Embedding of the final filtering step: duplicates are removed only when
angles were detected and more than one title exists. -/
def filter_angle_duplicates (angles_detected : Bool) (results : List Title) : List Title :=
  if angles_detected && decide (1 < results.length) then dedupByDuration [] results
  else results

/-- Embedding of `scan_titles_with_makemkv`, with the subprocess output
(the line list returned by `_run_makemkv_info`) supplied as input. -/
def scan_titles_with_makemkv (output_lines : List String) : PyValue (List Title) :=
  let st := output_lines.foldl processLine ⟨[], [], false⟩
  match buildTitlesList st (sortNat (st.tinfo.map (fun p => p.1))) with
  | .raised => .raised
  | .ok results => .ok (filter_angle_duplicates st.angles results)

/-! ## Audio track selection (`moviedisc_ripper.py`,
`get_audio_track_score` and `apply_audio_track_preferences`) -/

/-- The lossless-codec substrings of `get_audio_track_score`. -/
def LOSSLESS_SCORE_SUBSTRINGS : List String :=
  ["truehd", "dts-hd", "dts:x", "flac", "pcm", "lpcm"]

/-- The lossless-codec substrings of the `lossless` / `lossy` policy
branches of `apply_audio_track_preferences` (these check `codec_name` only
and omit `dts:x`). -/
def LOSSLESS_SELECT_SUBSTRINGS : List String := ["truehd", "dts-hd", "flac", "pcm", "lpcm"]

/-- Embedding of `get_audio_track_score`. -/
def get_audio_track_score (track : AudioTrack) : Nat :=
  let channel_format := lowerStr track.channel_format
  let s1 :=
    if strContains channel_format "7.1" then 400
    else if strContains channel_format "5.1" then 300
    else if strContains channel_format "stereo" || strContains channel_format "2.0" then 200
    else if strContains channel_format "mono" || strContains channel_format "1.0" then 100
    else 0
  let codec_name := lowerStr track.codec_name
  let codec_format := lowerStr track.codec_format
  let s2 :=
    if LOSSLESS_SCORE_SUBSTRINGS.any
        (fun x => strContains codec_name x || strContains codec_format x) then 50
    else 0
  let s3 := if track.is_atmos then 25 else 0
  s1 + s2 + s3

/-- Index (into the full track list) of the track Python's
`sorted(main_tracks, key=get_audio_track_score, reverse=True)[0]` selects:
since that sort is stable and reversal keeps ties in original order, it is
the first non-commentary track attaining the maximal score. -/
def bestMainIndex (tracks : List AudioTrack) : Option Nat :=
  let mains := tracks.enum.filter (fun p => !p.2.is_commentary)
  let maxScore := (mains.map (fun p => get_audio_track_score p.2)).foldl Nat.max 0
  (mains.find? (fun p => get_audio_track_score p.2 == maxScore)).map (fun p => p.1)

/-- A track's `codec_name` matches the lossless set of the selection pass. -/
def selectLossless (t : AudioTrack) : Bool :=
  LOSSLESS_SELECT_SUBSTRINGS.any (fun x => strContains (lowerStr t.codec_name) x)

/-- Embedding of `apply_audio_track_preferences(audio_tracks, settings)`.
The two settings read from the dict are passed directly;
`settings.get("include_commentary", False)` and
`settings.get("audio_quality_preference", "best")` supply the defaults when
the keys are absent.  Every track is first disabled; the policy branches
then re-enable tracks, and an `audio_quality` value matching none of the
three branches re-enables nothing. -/
def apply_audio_track_preferences (audio_tracks : List AudioTrack)
    (include_commentary : Bool) (audio_quality : String) : List AudioTrack :=
  if audio_tracks.isEmpty then audio_tracks
  else
    let best := bestMainIndex audio_tracks
    audio_tracks.enum.map (fun p =>
      let t := p.2
      { t with
          enabled :=
            if t.is_commentary then include_commentary
            else if audio_quality == "best" then best == some p.1
            else if audio_quality == "lossless" then selectLossless t
            else if audio_quality == "lossy" then !selectLossless t
            else false })

/-! ## Retrying scan runner (`moviedisc_ripper.py`, `run_makemkv`) -/

/-- The in-loop read-error test of `run_makemkv` applied to one output
line: lower-case, then the three checked substrings.  (The fourth signature
of `DISC_ERROR_SUBSTRINGS`, `"lec uncorrectable"`, is used only by
`_run_makemkv_info` in `makemkv_titles.py`, not here.) -/
def detect_read_error_line (line : String) : Bool :=
  let l := lowerStr line
  strContains l "medium error" || strContains l "uncorrectable error" ||
    strContains l "scsi error"

/-- Environment of one attempt of the retry loop: the subprocess output
lines, the exit status, and whether the volume reappears within the 60 s
reinsertion poll after an eject. -/
structure MakemkvAttempt where
  lines : List String
  returncode : Int
  disc_reappears : Bool
deriving Repr, DecidableEq

/-- How one invocation of `run_makemkv` ends.  `normalReturn` covers both
the explicit `return` on success and falling out of the `while` loop (both
return `None` to the caller); the three fatal constructors are the three
`sys.exit(1)` sites. -/
inductive RunOutcome where
  | normalReturn
  | fatalNonZeroExit
  | fatalDiscNotDetected
  | fatalReadError
deriving Repr, DecidableEq

/-- The `while attempt < max_retries` loop of `run_makemkv`, by recursion
on the remaining attempt budget; `performed` is the `attempt` counter.
Returns the outcome and the number of attempts performed. -/
def run_makemkv_go (env : Nat → MakemkvAttempt) (has_volume : Bool) :
    Nat → Nat → RunOutcome × Nat
  | performed, 0 => (.normalReturn, performed)
  | performed, remaining + 1 =>
    let k := performed + 1
    let a := env k
    if a.lines.any detect_read_error_line then
      if 0 < remaining then
        if has_volume then
          if a.disc_reappears then run_makemkv_go env has_volume k remaining
          else (.fatalDiscNotDetected, k)
        else run_makemkv_go env has_volume k remaining
      else (.fatalReadError, k)
    else if a.returncode == 0 then (.normalReturn, k)
    else (.fatalNonZeroExit, k)

/-- Embedding of `run_makemkv(cmd, volume_name, max_retries)`: the
subprocess behaviour of attempt `i` (1-based) is `env i`; `has_volume`
models `volume_name` being non-`None`. -/
def run_makemkv (env : Nat → MakemkvAttempt) (has_volume : Bool)
    (max_retries : Nat) : RunOutcome × Nat :=
  run_makemkv_go env has_volume 0 max_retries

/-! ## Metadata handoff (`includes/metadata_layout.py`,
`ensure_metadata_layout`) -/

/-- What `ensure_metadata_layout` reports on its two success paths. -/
inductive PublishOutcome where
  | created
  | already_exists
deriving Repr, DecidableEq

/-- Embedding of `ensure_metadata_layout` as a function of the store's
response status: 200/201 create, 409 conflict treated as success
(already exists), anything else raises `SystemExit(1)`. -/
def ensure_metadata_layout (status_code : Nat) : PyValue PublishOutcome :=
  if status_code == 200 || status_code == 201 then .ok .created
  else if status_code == 409 then .ok .already_exists
  else .raised

/-- Modelled from the spec: the external metadata store's
`POST metadata-layout/{checksum}` endpoint (spec §6, "idempotent create"),
whose server code is not part of this repository.  State is whether the
layout for this checksum already exists; the endpoint answers 201 and
creates it when absent, 409 (conflict) when present. -/
def store_post_metadata_layout (layoutExists : Bool) : Nat × Bool :=
  if layoutExists then (409, true) else (201, true)

/-- One `publish` call: the client `ensure_metadata_layout` applied to the
store's response, returning the report and the new store state. -/
def publish_metadata_layout (layoutExists : Bool) : PyValue PublishOutcome × Bool :=
  ((ensure_metadata_layout (store_post_metadata_layout layoutExists).1),
    (store_post_metadata_layout layoutExists).2)

/-! ## Claim-side definitions used by the theorems -/

/-- A line that the scan loop stores as a per-title (TINFO) record: it is
non-empty after stripping, is not consumed by the angle-announcement test,
and matches the TINFO pattern. -/
def is_tinfo_record (line : String) : Bool :=
  let l := stripStr line
  !l.isEmpty && !hasAngleAnnouncement l && (parseTINFO l.toList).isSome

/-- Specification-side reformulation of the angle dedup from the claim's
words: position `i` of the list is kept iff no earlier position carries the
same `duration_seconds`, preserving order. -/
def keepFirstByDurationSpec (l : List Title) : List Title :=
  (List.range l.length).filterMap (fun i =>
    if (List.range i).any
        (fun j => (l.getD j default).duration_seconds == (l.getD i default).duration_seconds) then
      none
    else some (l.getD i default))

/-- The character governing the left word boundary of a match starting
after prefix `a`: the last character of `a`, or the carried previous
character when `a` is empty. -/
def prevCharOf (prev : Option Char) (a : List Char) : Option Char :=
  match a.getLast? with
  | some c => some c
  | none => prev

/-- Specification-side reading of the channel-layout pattern: the text
decomposes around a three-character token digit-dot-digit drawn from the
pattern's two digit classes, with word boundaries on both sides. -/
def LayoutOccursFrom (prev : Option Char) (s : List Char) : Prop :=
  ∃ a c1 c2 b, s = a ++ c1 :: '.' :: c2 :: b ∧ isLayoutFirst c1 = true ∧
    isLayoutSecond c2 = true ∧ leftBoundaryOk (prevCharOf prev a) = true ∧
    rightBoundaryOk b = true

/-- The seven layouts the specification lists as the only valid ones. -/
def CLAIMED_VALID_LAYOUTS : List String := ["1.0", "2.0", "2.1", "5.1", "6.1", "7.1", "7.2"]

/-- A concrete non-commentary audio track used by counterexamples and
witnesses. -/
def sampleMainTrack : AudioTrack :=
  { stream_index := 1
    language_code := "eng"
    language_name := "English"
    codec_name := "Dolby Digital 5.1"
    codec_format := "A_AC3"
    channel_format := "5.1 Surround"
    name := ""
    is_atmos := false
    is_commentary := false
    is_default := false
    enabled := true }

/-- A concrete title with a given index and parsed duration, used by
counterexamples and witnesses. -/
def sampleTitle (i : Nat) (d : Option Nat) : Title :=
  { title_index := i
    name := none
    length := none
    duration_seconds := d
    size := none
    size_bytes := none
    source_file := none
    audio_tracks := []
    subtitle_tracks := []
    raw_tinfo := []
    raw_sinfo := [] }

/-! # Theorems -/

/-- On a junk-free tree the filtered and unfiltered walks agree. -/
theorem walkFiles_of_noJunk (tree : List VolFile) (h : tree.all keptByJunkFilter = true) :
    walkFiles true tree = walkFiles false tree := by
  have h' : ∀ a ∈ tree, keptByJunkFilter a = true := by
    simpa [List.all_eq_true] using h
  simp [walkFiles, List.filter_eq_self.mpr h']

/-- On a junk-free tree the hashed documents agree for every disc type. -/
theorem fingerprintDoc_of_noJunk (tree : List VolFile) (h : tree.all keptByJunkFilter = true)
    (dt : String) : fingerprintDoc dt true tree = fingerprintDoc dt false tree := by
  unfold fingerprintDoc
  rw [walkFiles_of_noJunk tree h]

/-- C1, counterexample: on the junk-free one-file tree `[a]`, the legacy
fingerprint with `preserve_case=True` and disc type `"DVD"` hashes a
document containing `"DVD"` while the canonical fingerprint hashes one
containing `"dvd"`, and the two SHA-256 digests differ — the claimed
equality fails. -/
theorem claim_C1_counterexample :
    ([⟨[], "a", 1⟩] : List VolFile).all keptByJunkFilter = true ∧
      disc_fingerprint_legacy [⟨[], "a", 1⟩] "DVD" true ≠
        disc_fingerprint [⟨[], "a", 1⟩] "dvd" := by
  constructor
  · decide
  · decide

/-- C1 (amended): for every volume tree without OS-junk files, the legacy
fingerprint computed with `preserve_case=False` (so the disc type is
lower-cased, as the canonical algorithm does) equals the canonical
fingerprint: `fingerprint_legacy(tree, "DVD", preserve_case=False) =
fingerprint(tree, "dvd")`. -/
theorem claim_C1 (tree : List VolFile) (h : tree.all keptByJunkFilter = true) :
    disc_fingerprint_legacy tree "DVD" false = disc_fingerprint tree "dvd" := by
  have hl : lowerStr "DVD" = "dvd" := by decide
  have hl2 : lowerStr "dvd" = "dvd" := by decide
  simp [disc_fingerprint, disc_fingerprint_legacy, hl, hl2,
    fingerprintDoc_of_noJunk tree h]

/-- C1, witness: the amended equality evaluated on the concrete junk-free
one-file tree. -/
theorem claim_C1_witness :
    ([⟨[], "a", 1⟩] : List VolFile).all keptByJunkFilter = true ∧
      disc_fingerprint_legacy [⟨[], "a", 1⟩] "DVD" false =
        disc_fingerprint [⟨[], "a", 1⟩] "dvd" :=
  ⟨by decide, claim_C1 [⟨[], "a", 1⟩] (by decide)⟩

/-- C8: `"4.3 GB"` parses to exactly 4 300 000 000 bytes, `"4.3 GiB"` to
4 617 089 843 bytes (the floor of 4.3·1024³, the spec's "±rounding"), an
unrecognized unit such as `"4.3 ZB"` gives `none`, and every string the
size pattern does not match gives `none` rather than an error. -/
theorem claim_C8 :
    _parse_size_to_bytes "4.3 GB" = PyValue.ok (some 4300000000) ∧
    _parse_size_to_bytes "4.3 GiB" = PyValue.ok (some 4617089843) ∧
    _parse_size_to_bytes "4.3 ZB" = PyValue.ok none ∧
    ∀ s : String, sizeRegexMatch s = none → _parse_size_to_bytes s = PyValue.ok none := by
  refine ⟨by decide, by decide, by decide, ?_⟩
  intro s hs
  unfold _parse_size_to_bytes
  rw [hs]

/-- C8, witness: the no-match branch evaluated on a concrete string. -/
theorem claim_C8_witness :
    sizeRegexMatch "hello" = none ∧ _parse_size_to_bytes "hello" = PyValue.ok none :=
  ⟨by decide, claim_C8.2.2.2 "hello" (by decide)⟩

/-- C9: a 409 conflict from the store is reported as already-exists (not an
error), and publishing twice against the spec-modelled store raises
neither time — the first call reports created, the second already-exists. -/
theorem claim_C9 :
    ensure_metadata_layout 409 = PyValue.ok PublishOutcome.already_exists ∧
    (publish_metadata_layout false).1 = PyValue.ok PublishOutcome.created ∧
    (publish_metadata_layout (publish_metadata_layout false).2).1 =
      PyValue.ok PublishOutcome.already_exists := by
  decide

/-- C4, counterexample: `"lec uncorrectable"` is one of the four
`_DISC_ERROR_SUBSTRINGS` signatures and occurs (case-insensitively) in the
line `"LEC Uncorrectable at offset 12345"`, yet the retrying runner's
per-line test does not fire on that line — `run_makemkv` checks only three
of the four signatures. -/
theorem claim_C4_counterexample :
    "lec uncorrectable" ∈ DISC_ERROR_SUBSTRINGS ∧
      strContains (lowerStr "LEC Uncorrectable at offset 12345") "lec uncorrectable" = true ∧
      detect_read_error_line "LEC Uncorrectable at offset 12345" = false := by
  refine ⟨by decide, by decide, by decide⟩

/-- C4 (amended): in the retrying scan runner a line triggers the
error-detected transition exactly when it contains one of the three
signatures "medium error", "uncorrectable error", "scsi error"
(case-insensitively); the fourth signature of the info-scan helper,
"lec uncorrectable", is not checked here. -/
theorem claim_C4 (line : String) :
    detect_read_error_line line = true ↔
      ∃ s ∈ (["medium error", "uncorrectable error", "scsi error"] : List String),
        strContains (lowerStr line) s = true := by
  simp only [detect_read_error_line, Bool.or_eq_true]
  constructor
  · rintro ((h | h) | h)
    · exact ⟨"medium error", by simp, h⟩
    · exact ⟨"uncorrectable error", by simp, h⟩
    · exact ⟨"scsi error", by simp, h⟩
  · rintro ⟨s, hs, h⟩
    simp only [List.mem_cons, List.not_mem_nil, or_false] at hs
    rcases hs with rfl | rfl | rfl
    · exact Or.inl (Or.inl h)
    · exact Or.inl (Or.inr h)
    · exact Or.inr h

/-- Every attempt hitting a read error and every reinsertion succeeding,
the loop performs exactly the remaining budget of attempts and exits
fatally. -/
theorem run_makemkv_go_all_errors (env : Nat → MakemkvAttempt) (hv : Bool)
    (herr : ∀ i, (env i).lines.any detect_read_error_line = true)
    (hre : ∀ i, (env i).disc_reappears = true) :
    ∀ r p : Nat, run_makemkv_go env hv p (r + 1) = (RunOutcome.fatalReadError, p + (r + 1)) := by
  intro r
  induction r with
  | zero =>
    intro p
    simp [run_makemkv_go, herr (p + 1)]
  | succ n ih =>
    intro p
    rw [run_makemkv_go]
    simp only [herr (p + 1), hre (p + 1), if_true, Nat.zero_lt_succ, if_pos]
    cases hv with
    | true =>
      simp only [if_true]
      rw [ih (p + 1)]
      congr 1
      omega
    | false =>
      simp only [Bool.false_eq_true, if_false]
      rw [ih (p + 1)]
      congr 1
      omega

/-- C5 (amended): for every `max_retries ≥ 1`, when every attempt's output
contains a read-error line and the volume reappears after every eject, the
runner performs exactly `max_retries` attempts and then fails fatally; the
loop terminates.  (With `max_retries = 0` the loop body never runs and the
function returns normally — see the counterexample.) -/
theorem claim_C5 (env : Nat → MakemkvAttempt) (has_volume : Bool) (max_retries : Nat)
    (hm : 1 ≤ max_retries)
    (herr : ∀ i, (env i).lines.any detect_read_error_line = true)
    (hre : ∀ i, (env i).disc_reappears = true) :
    run_makemkv env has_volume max_retries = (RunOutcome.fatalReadError, max_retries) := by
  obtain ⟨r, rfl⟩ : ∃ r, max_retries = r + 1 := ⟨max_retries - 1, by omega⟩
  have h := run_makemkv_go_all_errors env has_volume herr hre r 0
  simpa [run_makemkv] using h

/-- C5, counterexample: with `max_retries = 0` the claim demands a fatal
failure after zero attempts, but the `while` loop never runs and
`run_makemkv` returns normally (`None`), exactly like a success. -/
theorem claim_C5_counterexample :
    run_makemkv (fun _ => ⟨["a medium error occurred"], 0, true⟩) true 0 =
        (RunOutcome.normalReturn, 0) ∧
      RunOutcome.normalReturn ≠ RunOutcome.fatalReadError := by
  exact ⟨rfl, by decide⟩

/-- C5, witness: the amended bound evaluated at `max_retries = 3` with a
constant all-errors environment. -/
theorem claim_C5_witness :
    1 ≤ 3 ∧
      run_makemkv (fun _ => ⟨["a medium error occurred"], 0, true⟩) true 3 =
        (RunOutcome.fatalReadError, 3) :=
  ⟨by decide,
    claim_C5 (fun _ => ⟨["a medium error occurred"], 0, true⟩) true 3 (by decide)
      (fun _ => rfl) (fun _ => rfl)⟩

/-- Mapping the second components of an enumerated list ignores the
indices. -/
theorem enumFrom_map_snd {α β : Type} (f : α → β) :
    ∀ (l : List α) (n : Nat), (List.enumFrom n l).map (fun p => f p.2) = l.map f := by
  intro l
  induction l with
  | nil => intro n; rfl
  | cons x xs ih => intro n; simp [List.enumFrom, ih]

/-- A guarded boolean is a conjunction. -/
theorem if_bool_and (c d : Bool) : (if c = true then d else false) = (c && d) := by
  cases c <;> simp

/-- C3, counterexample: on a single non-commentary track, the unknown
policy value "highest" disables the track while policy "best" enables it —
an unknown policy value does not behave like "best". -/
theorem claim_C3_counterexample :
    apply_audio_track_preferences [sampleMainTrack] false "highest" ≠
      apply_audio_track_preferences [sampleMainTrack] false "best" := by
  decide

/-- C3 (amended): for every track list and every policy value other than
"best", "lossless" and "lossy", the selection pass enables no main track at
all: after it, a track is enabled iff it is a commentary track and
commentary inclusion was requested.  (Only a policy value *absent* from the
settings dict defaults to "best", via `settings.get`.) -/
theorem claim_C3 (tracks : List AudioTrack) (ic : Bool) (q : String)
    (h1 : q ≠ "best") (h2 : q ≠ "lossless") (h3 : q ≠ "lossy") :
    apply_audio_track_preferences tracks ic q =
      tracks.map (fun t => { t with enabled := t.is_commentary && ic }) := by
  have b1 : (q == "best") = false := beq_eq_false_iff_ne.mpr h1
  have b2 : (q == "lossless") = false := beq_eq_false_iff_ne.mpr h2
  have b3 : (q == "lossy") = false := beq_eq_false_iff_ne.mpr h3
  unfold apply_audio_track_preferences
  by_cases he : tracks.isEmpty
  · have : tracks = [] := by simpa using he
    simp [this]
  · simp only [he, Bool.false_eq_true, if_false, b1, b2, b3, if_bool_and]
    exact enumFrom_map_snd (fun t => { t with enabled := t.is_commentary && ic }) tracks 0

/-- C3, witness: the amended behaviour evaluated on the one-track list
with the unknown policy "highest". -/
theorem claim_C3_witness :
    ("highest" ≠ "best" ∧ "highest" ≠ "lossless" ∧ "highest" ≠ "lossy") ∧
      apply_audio_track_preferences [sampleMainTrack] false "highest" =
        [sampleMainTrack].map (fun t => { t with enabled := t.is_commentary && false }) :=
  ⟨⟨by decide, by decide, by decide⟩,
    claim_C3 [sampleMainTrack] false "highest" (by decide) (by decide) (by decide)⟩

/-- Upserting into the title map never yields an empty map. -/
theorem tmapUpsert_ne_nil (t a : Nat) (v : String) (m : List (Nat × List (Nat × String))) :
    tmapUpsert t a v m ≠ [] := by
  cases m with
  | nil => simp [tmapUpsert]
  | cons p rest =>
    obtain ⟨t0, m0⟩ := p
    simp only [tmapUpsert]
    split <;> simp

/-- One scan-loop iteration leaves the title map empty iff it was empty
and the line is not a TINFO record. -/
theorem processLine_tinfo_nil (st : ScanState) (line : String) :
    (processLine st line).tinfo = [] ↔ st.tinfo = [] ∧ is_tinfo_record line = false := by
  unfold processLine is_tinfo_record
  by_cases h1 : (stripStr line).isEmpty
  · simp [h1]
  · by_cases h2 : hasAngleAnnouncement (stripStr line)
    · simp [h1, h2]
    · cases h3 : parseTINFO (stripStr line).data with
      | none =>
        cases h4 : parseSINFO (stripStr line).data with
        | none => simp [h1, h2, h3, h4]
        | some r => simp [h1, h2, h3, h4]
      | some r => simp [h1, h2, h3, tmapUpsert_ne_nil]

/-- The aggregated title map is empty iff no input line is a TINFO
record. -/
theorem foldl_processLine_tinfo_nil (lines : List String) :
    ∀ st : ScanState, (lines.foldl processLine st).tinfo = [] ↔
      st.tinfo = [] ∧ ∀ l ∈ lines, is_tinfo_record l = false := by
  induction lines with
  | nil => intro st; simp
  | cons x xs ih =>
    intro st
    simp only [List.foldl_cons, List.mem_cons]
    rw [ih (processLine st x), processLine_tinfo_nil st x]
    constructor
    · rintro ⟨⟨hs, hx⟩, hxs⟩
      exact ⟨hs, fun l hl => hl.elim (fun e => e ▸ hx) (hxs l)⟩
    · rintro ⟨hs, hall⟩
      exact ⟨⟨hs, hall x (Or.inl rfl)⟩, fun l hl => hall l (Or.inr hl)⟩

/-- Insertion into a sorted key list never empties it. -/
theorem insertNat_ne_nil (x : Nat) (l : List Nat) : insertNat x l ≠ [] := by
  cases l with
  | nil => simp [insertNat]
  | cons y ys =>
    simp only [insertNat]
    split <;> simp

/-- Sorting keys yields the empty list only for the empty list. -/
theorem sortNat_eq_nil_iff (l : List Nat) : sortNat l = [] ↔ l = [] := by
  cases l with
  | nil => simp [sortNat]
  | cons x xs => simp [sortNat, insertNat_ne_nil]

/-- Building from a non-empty key list never returns an empty title
list. -/
theorem buildTitlesList_cons_ne_ok_nil (st : ScanState) (k : Nat) (rest : List Nat) :
    buildTitlesList st (k :: rest) ≠ PyValue.ok [] := by
  simp only [buildTitlesList]
  split
  · simp
  · split <;> simp

/-- The first element always survives the angle dedup, so the filtered
list is empty only for the empty list. -/
theorem filter_angle_duplicates_eq_nil (a : Bool) (res : List Title) :
    filter_angle_duplicates a res = [] ↔ res = [] := by
  cases res with
  | nil => simp [filter_angle_duplicates]
  | cons t rest =>
    simp only [filter_angle_duplicates]
    split
    · simp [dedupByDuration]
    · simp

/-- C2, counterexample: on input with zero per-title records the parse
does not fail — it returns the empty title list normally, with no
`NoTitlesFound` (or any other) error raised. -/
theorem claim_C2_counterexample :
    scan_titles_with_makemkv [] = PyValue.ok [] ∧
      PyValue.ok ([] : List Title) ≠ (PyValue.raised : PyValue (List Title)) := by
  exact ⟨rfl, by simp⟩

/-- C2 (amended): the parse operation never signals a no-titles error:
for every input it returns the empty title list exactly when zero per-title
(TINFO) records are found, and a non-empty list whenever at least one
per-title record is present (and the size strings convert, which every
non-pathological size string does). -/
theorem claim_C2 (lines : List String) :
    scan_titles_with_makemkv lines = PyValue.ok [] ↔
      ∀ l ∈ lines, is_tinfo_record l = false := by
  unfold scan_titles_with_makemkv
  simp only []
  constructor
  · intro h
    have htin : (lines.foldl processLine ⟨[], [], false⟩).tinfo = [] := by
      by_contra hne
      have hkeysne : sortNat ((lines.foldl processLine ⟨[], [], false⟩).tinfo.map
          (fun p => p.1)) ≠ [] := by
        intro he
        exact hne (by simpa using (sortNat_eq_nil_iff _).mp he)
      obtain ⟨k, rest, hkr⟩ : ∃ k rest,
          sortNat ((lines.foldl processLine ⟨[], [], false⟩).tinfo.map (fun p => p.1)) =
            k :: rest := by
        cases hc : sortNat ((lines.foldl processLine ⟨[], [], false⟩).tinfo.map
            (fun p => p.1)) with
        | nil => exact absurd hc hkeysne
        | cons a b => exact ⟨a, b, rfl⟩
      rw [hkr] at h
      cases hbl : buildTitlesList (lines.foldl processLine ⟨[], [], false⟩) (k :: rest) with
      | raised => rw [hbl] at h; simp at h
      | ok results =>
        rw [hbl] at h
        simp only [PyValue.ok.injEq] at h
        have hres : results = [] := (filter_angle_duplicates_eq_nil _ _).mp h
        rw [hres] at hbl
        exact buildTitlesList_cons_ne_ok_nil _ _ _ hbl
    exact ((foldl_processLine_tinfo_nil lines ⟨[], [], false⟩).mp htin).2
  · intro hall
    have htin : (lines.foldl processLine ⟨[], [], false⟩).tinfo = [] :=
      (foldl_processLine_tinfo_nil lines ⟨[], [], false⟩).mpr ⟨rfl, hall⟩
    rw [show sortNat ((lines.foldl processLine ⟨[], [], false⟩).tinfo.map (fun p => p.1)) = []
      from (sortNat_eq_nil_iff _).mpr (by rw [htin]; rfl)]
    simp [buildTitlesList, filter_angle_duplicates]

/-- Boolean equality on optional durations is symmetric. -/
theorem optBeqComm (x y : Option Nat) : (x == y) = (y == x) := by
  by_cases h : x = y
  · subst h; rfl
  · rw [beq_eq_false_iff_ne.mpr h, beq_eq_false_iff_ne.mpr (Ne.symm h)]

/-- Reassociation of a three-way boolean disjunction. -/
theorem orShuffle (a b x : Bool) : ((b || a) || x) = (a || (b || x)) := by
  cases a <;> cases b <;> cases x <;> rfl

/-- Pointwise equal functions filter-map equally. -/
theorem filterMapCongr {α β : Type} (f g : α → Option β) :
    ∀ l : List α, (∀ a ∈ l, f a = g a) → l.filterMap f = l.filterMap g := by
  intro l
  induction l with
  | nil => intro _; rfl
  | cons x xs ih =>
    intro h
    simp only [List.filterMap_cons, h x (List.mem_cons_self x xs),
      ih (fun a ha => h a (List.mem_cons_of_mem x ha))]

/-- The dedup loop equals the positional keep-first filter, for any
starting seen-set. -/
theorem dedupByDuration_eq_spec (l : List Title) :
    ∀ seen : List (Option Nat),
      dedupByDuration seen l =
        (List.range l.length).filterMap (fun i =>
          if seen.contains (l.getD i default).duration_seconds ||
              (List.range i).any
                (fun j => (l.getD j default).duration_seconds ==
                  (l.getD i default).duration_seconds) then none
          else some (l.getD i default)) := by
  induction l with
  | nil => intro seen; simp [dedupByDuration]
  | cons t rest ih =>
    intro seen
    rw [List.length_cons, List.range_succ_eq_map]
    by_cases hc : seen.contains t.duration_seconds = true
    · have hcm0 : t.duration_seconds ∈ seen := by simpa using hc
      rw [List.filterMap_cons_none (by simp [hcm0])]
      rw [List.filterMap_map]
      simp only [dedupByDuration]
      rw [if_pos hc, ih seen]
      apply filterMapCongr
      intro i hi
      simp only [Function.comp_def, Function.comp, Nat.succ_eq_add_one, List.getD_cons_succ,
        List.range_succ_eq_map, List.any_cons, List.any_map, List.getD_cons_zero]
      cases hb : t.duration_seconds == (rest.getD i default).duration_seconds with
      | true =>
        have he : (rest.getD i default).duration_seconds = t.duration_seconds :=
          (eq_of_beq hb).symm
        have hm : (rest.getD i default).duration_seconds ∈ seen := by
          rw [he]; exact hcm0
        simp [hb]
        intro hcontra
        have hm2 : (rest[i]?.getD default).duration_seconds ∈ seen := by simpa using hm
        exact absurd hm2 hcontra
      | false => simp [hb]
    · have hnm : t.duration_seconds ∉ seen := by simpa using hc
      rw [@List.filterMap_cons_some _ _ _ _ _ t (by simp [hnm])]
      rw [List.filterMap_map]
      simp only [dedupByDuration]
      rw [if_neg hc, ih (t.duration_seconds :: seen)]
      congr 1
      apply filterMapCongr
      intro i hi
      simp only [Function.comp_def, Function.comp, Nat.succ_eq_add_one, List.getD_cons_succ,
        List.range_succ_eq_map, List.any_cons, List.any_map, List.getD_cons_zero,
        List.contains_cons]
      rw [optBeqComm (rest.getD i default).duration_seconds t.duration_seconds]
      rw [orShuffle]

/-- C7: the angle-duplicate pass is the identity when angles were not
detected or at most one title exists, and otherwise keeps exactly the first
title per distinct duration, in first-seen order. -/
theorem claim_C7 (angles : Bool) (results : List Title) :
    (angles = false → filter_angle_duplicates angles results = results) ∧
    (angles = true → 1 < results.length →
      filter_angle_duplicates angles results = keepFirstByDurationSpec results) ∧
    (angles = true → results.length ≤ 1 →
      filter_angle_duplicates angles results = results) := by
  refine ⟨?_, ?_, ?_⟩
  · intro h; subst h; simp [filter_angle_duplicates]
  · intro h hlen
    subst h
    unfold filter_angle_duplicates
    rw [if_pos (by simp [hlen])]
    rw [dedupByDuration_eq_spec results []]
    unfold keepFirstByDurationSpec
    apply filterMapCongr
    intro i hi
    simp
  · intro h hlen
    subst h
    unfold filter_angle_duplicates
    rw [if_neg (by simp [Nat.not_lt.mpr hlen])]

/-- C7, witness: three titles with durations 3600, 3600, 5400 and angles
detected project to exactly two titles (3600 once, 5400 once), in order. -/
theorem claim_C7_witness :
    1 < ([sampleTitle 0 (some 3600), sampleTitle 1 (some 3600),
        sampleTitle 2 (some 5400)] : List Title).length ∧
      filter_angle_duplicates true
          [sampleTitle 0 (some 3600), sampleTitle 1 (some 3600), sampleTitle 2 (some 5400)] =
        [sampleTitle 0 (some 3600), sampleTitle 2 (some 5400)] := by
  refine ⟨by decide, ?_⟩
  rw [(claim_C7 true
    [sampleTitle 0 (some 3600), sampleTitle 1 (some 3600), sampleTitle 2 (some 5400)]).2.1
    rfl (by decide)]
  decide

/-- All titles with an unparsed duration fall into one dedup group. -/
theorem dedupByDuration_filter_none (l : List Title) :
    ∀ seen : List (Option Nat),
      (dedupByDuration seen l).filter (fun t => t.duration_seconds == none) =
        if seen.contains (none : Option Nat) then []
        else (l.filter (fun t => t.duration_seconds == none)).take 1 := by
  induction l with
  | nil =>
    intro seen
    cases h : seen.contains (none : Option Nat) <;> simp [dedupByDuration, h]
  | cons t rest ih =>
    intro seen
    simp only [dedupByDuration]
    by_cases hc : seen.contains t.duration_seconds = true
    · rw [if_pos hc, ih seen]
      by_cases hd : t.duration_seconds = none
      · have hc2 : seen.contains (none : Option Nat) = true := hd ▸ hc
        have hmem : (none : Option Nat) ∈ seen := by simpa using hc2
        simp [List.filter_cons, hmem, hd]
      · have hb : (t.duration_seconds == (none : Option Nat)) = false :=
          beq_eq_false_iff_ne.mpr hd
        simp [List.filter_cons, hb]
    · have hc' : seen.contains t.duration_seconds = false := by simpa using hc
      rw [if_neg hc]
      by_cases hd : t.duration_seconds = none
      · have hb : (t.duration_seconds == (none : Option Nat)) = true := by rw [hd]; rfl
        have hcn : ((t.duration_seconds :: seen).contains (none : Option Nat)) = true := by
          rw [List.contains_cons, hd]
          simp
        have hc2 : seen.contains (none : Option Nat) = false := hd ▸ hc'
        have hmemn : (none : Option Nat) ∉ seen := by simpa using hc2
        simp only [List.filter_cons, hb, if_true]
        rw [ih (t.duration_seconds :: seen)]
        simp [hd, hmemn]
      · have hb : (t.duration_seconds == (none : Option Nat)) = false :=
          beq_eq_false_iff_ne.mpr hd
        simp only [List.filter_cons, hb, Bool.false_eq_true, if_false]
        rw [ih (t.duration_seconds :: seen)]
        have hcn : ((t.duration_seconds :: seen).contains (none : Option Nat)) =
            seen.contains (none : Option Nat) := by
          rw [List.contains_cons, beq_eq_false_iff_ne.mpr (fun e => hd e.symm)]
          simp
        rw [hcn]

/-- C10: whenever the angle dedup runs (angles detected and more than one
title), among the titles whose duration failed to parse only the first
survives — the none-duration titles of the output are the first
none-duration title of the input. -/
theorem claim_C10 (results : List Title) (h : 1 < results.length) :
    (filter_angle_duplicates true results).filter (fun t => t.duration_seconds == none) =
      (results.filter (fun t => t.duration_seconds == none)).take 1 := by
  unfold filter_angle_duplicates
  rw [if_pos (by simp [h])]
  rw [dedupByDuration_filter_none results []]
  simp

/-- C10, witness: two unparsed-duration titles (different names would not
matter) collapse to the first one. -/
theorem claim_C10_witness :
    1 < ([sampleTitle 0 none, sampleTitle 1 none, sampleTitle 2 (some 5400)] : List Title).length ∧
      (filter_angle_duplicates true
            [sampleTitle 0 none, sampleTitle 1 none, sampleTitle 2 (some 5400)]).filter
          (fun t => t.duration_seconds == none) =
        ([sampleTitle 0 none, sampleTitle 1 none, sampleTitle 2 (some 5400)].filter
            (fun t => t.duration_seconds == none)).take 1 :=
  ⟨by decide,
    claim_C10 [sampleTitle 0 none, sampleTitle 1 none, sampleTitle 2 (some 5400)] (by decide)⟩

/-- The boundary-relevant previous character steps through a cons. -/
theorem prevCharOf_cons (prev : Option Char) (c : Char) (a : List Char) :
    prevCharOf prev (c :: a) = prevCharOf (some c) a := by
  cases a with
  | nil => rfl
  | cons x xs =>
    unfold prevCharOf
    rw [List.getLast?_cons_cons]
    cases hx : (x :: xs).getLast? with
    | none =>
      exfalso
      have hs : (x :: xs).getLast?.isSome = true := List.getLast?_isSome.mpr (by simp)
      rw [hx] at hs
      simp at hs
    | some c0 => rfl

/-- One-step evaluation of the layout search on the empty input. -/
theorem findLayoutAux_nil (prev : Option Char) : findLayoutAux prev [] = none := rfl

/-- One-step evaluation on a single character: too short to match. -/
theorem findLayoutAux_one (prev : Option Char) (c : Char) :
    findLayoutAux prev [c] = none := rfl

/-- One-step evaluation on two characters: too short to match, advance. -/
theorem findLayoutAux_two (prev : Option Char) (c r : Char) :
    findLayoutAux prev [c, r] = findLayoutAux (some c) [r] := rfl

/-- One-step evaluation with at least three characters: match here or
advance one position. -/
theorem findLayoutAux_cons3 (prev : Option Char) (c1 cd c2 : Char) (rest2 : List Char) :
    findLayoutAux prev (c1 :: cd :: c2 :: rest2) =
      if cd == '.' && isLayoutFirst c1 && isLayoutSecond c2 && leftBoundaryOk prev &&
          rightBoundaryOk rest2 then some [c1, cd, c2]
      else findLayoutAux (some c1) (cd :: c2 :: rest2) := rfl

/-- Whatever the search returns has the shape of the pattern: a first-class
digit, a dot, a second-class digit. -/
theorem findLayoutAux_some_shape :
    ∀ (s : List Char) (prev : Option Char) (l : List Char),
      findLayoutAux prev s = some l →
      ∃ c1 c2, l = [c1, '.', c2] ∧ isLayoutFirst c1 = true ∧ isLayoutSecond c2 = true := by
  intro s
  induction s with
  | nil => intro prev l h; rw [findLayoutAux_nil] at h; simp at h
  | cons x t ih =>
    intro prev l h
    cases t with
    | nil => rw [findLayoutAux_one] at h; simp at h
    | cons r1 rest1 =>
      cases rest1 with
      | nil =>
        rw [findLayoutAux_two] at h
        exact ih (some x) l h
      | cons r2 rest2 =>
        rw [findLayoutAux_cons3] at h
        by_cases hcond : (r1 == '.' && isLayoutFirst x && isLayoutSecond r2 &&
            leftBoundaryOk prev && rightBoundaryOk rest2) = true
        · rw [if_pos hcond] at h
          simp only [Bool.and_eq_true, beq_iff_eq] at hcond
          obtain ⟨⟨⟨⟨hdot, hf⟩, hs2⟩, _⟩, _⟩ := hcond
          refine ⟨x, r2, ?_, hf, hs2⟩
          rw [← Option.some_inj.mp h, hdot]
        · rw [if_neg hcond] at h
          exact ih (some x) l h

/-- A successful search on the tail stays successful with the head
prepended. -/
theorem findLayoutAux_isSome_cons (prev : Option Char) (c : Char) (t : List Char)
    (h : (findLayoutAux (some c) t).isSome = true) :
    (findLayoutAux prev (c :: t)).isSome = true := by
  cases t with
  | nil => rw [findLayoutAux_nil] at h; simp at h
  | cons r1 rest1 =>
    cases rest1 with
    | nil => rw [findLayoutAux_one] at h; simp at h
    | cons r2 rest2 =>
      rw [findLayoutAux_cons3]
      split
      · simp
      · exact h

/-- Soundness of the scan: a successful search yields a decomposition with
a standalone pattern token. -/
theorem occurs_of_findLayoutAux_isSome :
    ∀ (s : List Char) (prev : Option Char),
      (findLayoutAux prev s).isSome = true → LayoutOccursFrom prev s := by
  intro s
  induction s with
  | nil => intro prev h; rw [findLayoutAux_nil] at h; simp at h
  | cons x t ih =>
    intro prev h
    cases t with
    | nil => rw [findLayoutAux_one] at h; simp at h
    | cons r1 rest1 =>
      cases rest1 with
      | nil =>
        rw [findLayoutAux_two] at h
        obtain ⟨a0, c1, c2, b, ht, h1, h2, h3, h4⟩ := ih (some x) h
        exact ⟨x :: a0, c1, c2, b, by simp [ht], h1, h2, by rwa [prevCharOf_cons], h4⟩
      | cons r2 rest2 =>
        rw [findLayoutAux_cons3] at h
        by_cases hcond : (r1 == '.' && isLayoutFirst x && isLayoutSecond r2 &&
            leftBoundaryOk prev && rightBoundaryOk rest2) = true
        · simp only [Bool.and_eq_true, beq_iff_eq] at hcond
          obtain ⟨⟨⟨⟨hdot, hf⟩, hs2⟩, hl⟩, hr⟩ := hcond
          exact ⟨[], x, r2, rest2, by simp [hdot], hf, hs2,
            by simpa [prevCharOf] using hl, hr⟩
        · rw [if_neg hcond] at h
          obtain ⟨a0, c1, c2, b, ht, h1, h2, h3, h4⟩ := ih (some x) h
          exact ⟨x :: a0, c1, c2, b, by simp [ht], h1, h2, by rwa [prevCharOf_cons], h4⟩

/-- Completeness of the scan: a standalone pattern token makes the search
succeed. -/
theorem findLayoutAux_isSome_of_occurs :
    ∀ (s : List Char) (prev : Option Char),
      LayoutOccursFrom prev s → (findLayoutAux prev s).isSome = true := by
  intro s
  induction s with
  | nil =>
    intro prev h
    obtain ⟨a, c1, c2, b, hs, _⟩ := h
    exact absurd hs (by simp)
  | cons x t ih =>
    intro prev h
    obtain ⟨a, c1, c2, b, hs, h1, h2, h3, h4⟩ := h
    cases a with
    | nil =>
      simp only [List.nil_append, List.cons.injEq] at hs
      obtain ⟨hx, ht⟩ := hs
      subst hx
      rw [ht, findLayoutAux_cons3, if_pos]
      · simp
      · have h3x : leftBoundaryOk prev = true := by simpa [prevCharOf] using h3
        simp [h1, h2, h3x, h4]
    | cons ca a0 =>
      simp only [List.cons_append, List.cons.injEq] at hs
      obtain ⟨hx, ht⟩ := hs
      subst hx
      have hocc : LayoutOccursFrom (some x) t := by
        refine ⟨a0, c1, c2, b, ht, h1, h2, ?_, h4⟩
        rwa [prevCharOf_cons] at h3
      exact findLayoutAux_isSome_cons prev x t (ih (some x) hocc)

/-- C6, counterexample: the combined text `"1.1"` (a channels field of
`"1.1"`) is assigned the channel layout `"1.1"` by the audio track
classification, although `"1.1"` is not among the seven layouts the claim
lists as the only matchable ones. -/
theorem claim_C6_counterexample :
    (_parse_audio_track 1 [(13, "1.1")]).channel_format = "1.1" ∧
      findChannelLayout "1.1  " = some "1.1" ∧
      "1.1" ∉ CLAIMED_VALID_LAYOUTS := by
  refine ⟨by decide, by decide, by decide⟩

/-- C6 (amended): the numeric channel-layout search fires exactly when the
combined text contains a standalone token consisting of a digit in
{1,2,5,6,7}, a dot, and a digit in {0,1,2} (fifteen combinations, a strict
superset of the seven layouts the spec lists); every match has that
three-character shape, and a bitrate string such as "1.5 Mb/s" is never
matched. -/
theorem claim_C6 (s : String) :
    ((findChannelLayout s).isSome = true ↔ LayoutOccursFrom none s.toList) ∧
    (∀ l, findChannelLayout s = some l →
      ∃ c1 c2, l = String.mk [c1, '.', c2] ∧ isLayoutFirst c1 = true ∧
        isLayoutSecond c2 = true) ∧
    findChannelLayout "1.5 Mb/s" = none := by
  refine ⟨?_, ?_, by decide⟩
  · unfold findChannelLayout
    rw [show (Option.map String.mk (findLayoutAux none s.toList)).isSome =
        (findLayoutAux none s.toList).isSome from Option.isSome_map]
    constructor
    · exact occurs_of_findLayoutAux_isSome s.toList none
    · exact findLayoutAux_isSome_of_occurs s.toList none
  · intro l hl
    unfold findChannelLayout at hl
    obtain ⟨l0, hl0, hmk⟩ := Option.map_eq_some'.mp hl
    obtain ⟨c1, c2, hshape, h1, h2⟩ := findLayoutAux_some_shape s.toList none l0 hl0
    exact ⟨c1, c2, by rw [← hmk, hshape], h1, h2⟩

/-- C6, witness: the shape property applied to the concrete match of
`"Surround 5.1"`. -/
theorem claim_C6_witness :
    findChannelLayout "Surround 5.1" = some "5.1" ∧
      ∃ c1 c2, "5.1" = String.mk [c1, '.', c2] ∧ isLayoutFirst c1 = true ∧
        isLayoutSecond c2 = true :=
  ⟨by decide, (claim_C6 "Surround 5.1").2.1 "5.1" (by decide)⟩

end MovieDisc
